import Mathlib

set_option maxHeartbeats 1000000

set_option maxRecDepth 100000

/-
Verification development for the repository local-deepseek-ui
(src/streamlit_app.py).  Python strings are modelled as lists of
characters, bytes as lists of naturals, and Python `str.find` as an
Option-valued first-occurrence search.  The parser loop `while True:`
in `ThinkParser.process` is embedded with an explicit fuel argument;
the fuel `buffer.length + 1` is always sufficient because every
iteration either breaks or consumes at least seven characters, and
lemmas below show the chosen fuel never runs out.
-/

/-- Index of the first occurrence of `pat` inside `s`, mirroring the Python
expression `s.find(pat)` (with `none` for -1). -/
def findSub (pat : List Char) : List Char → Option Nat
  | [] => if pat.isPrefixOf ([] : List Char) then some 0 else none
  | c :: t =>
    if pat.isPrefixOf (c :: t) then some 0
    else (findSub pat t).map (fun i => i + 1)

/-- Literal marker searched while outside a think block (source line 67). -/
def openM : List Char := ("<think>").toList

/-- Literal marker searched while inside a think block (source line 81). -/
def closeM : List Char := ("</think>").toList

/-- Structural events emitted by the parser: the tuples appended to the
Python list `parts` in `ThinkParser.process`.  The id slots carry
`Option (List Char)` because the source stores `self.open_think_id`,
which is `None` outside a think block. -/
inductive StructuralEvent where
  | text : List Char → StructuralEvent
  | think_open : Option (List Char) → StructuralEvent
  | think_update : Option (List Char) → List Char → StructuralEvent
  | think_close : Option (List Char) → StructuralEvent
deriving DecidableEq, Repr

/-- Parser state: the three instance attributes set in `ThinkParser.__init__`
(source lines 57-60). -/
structure ThinkParser where
  buffer : List Char
  in_think : Bool
  open_think_id : Option (List Char)
deriving DecidableEq, Repr

/-- Fresh parser as produced by `ThinkParser.__init__`. -/
def ThinkParser.init : ThinkParser := ⟨[], false, none⟩

/-- Block id string, mirroring the Python f-string `think-` followed by
`len(parts)` (source line 78). -/
def thinkId (n : Nat) : List Char := ("think-").toList ++ (Nat.repr n).toList

/-- Body of the `while True:` loop of `ThinkParser.process` (source lines
65-95), with an explicit fuel argument standing for the remaining loop
iterations.  The fuel-zero fallback is unreachable whenever the fuel
exceeds the buffer length, because every recursive call removes at least
seven characters from the buffer. -/
def processLoopF : Nat → ThinkParser → List StructuralEvent → List StructuralEvent × ThinkParser
  | 0, st, parts => (parts, st)
  | Nat.succ f, ⟨buf, true, bid⟩, parts =>
    match findSub closeM buf with
    | none =>
      (parts ++ [StructuralEvent.think_update bid buf], ⟨[], true, bid⟩)
    | some e =>
      processLoopF f ⟨buf.drop (e + 8), false, none⟩
        (parts ++ [StructuralEvent.think_update bid (buf.take e),
                   StructuralEvent.think_close bid])
  | Nat.succ f, ⟨buf, false, bid⟩, parts =>
    match findSub openM buf with
    | none =>
      if buf.isEmpty then (parts, ⟨buf, false, bid⟩)
      else (parts ++ [StructuralEvent.text buf], ⟨[], false, bid⟩)
    | some start =>
      let parts1 := if 0 < start then parts ++ [StructuralEvent.text (buf.take start)] else parts
      let id := thinkId parts1.length
      processLoopF f ⟨buf.drop (start + 7), true, some id⟩
        (parts1 ++ [StructuralEvent.think_open (some id)])

/-- The method `ThinkParser.process` (source lines 62-96): append the new
text to the buffer, then run the loop to completion. -/
def ThinkParser.process (st : ThinkParser) (text : List Char) : List StructuralEvent × ThinkParser :=
  processLoopF ((st.buffer ++ text).length + 1) { st with buffer := st.buffer ++ text } []

/-- Feed a sequence of deltas to a parser, concatenating all emitted parts. -/
def runDeltasAux : List StructuralEvent → ThinkParser → List (List Char) → List StructuralEvent × ThinkParser
  | acc, p, [] => (acc, p)
  | acc, p, d :: ds =>
    let r := p.process d
    runDeltasAux (acc ++ r.1) r.2 ds

/-- Feed a sequence of deltas to a fresh parser, collecting every emitted
part in order: the event stream of one whole assistant turn. -/
def runDeltas (ds : List (List Char)) : List StructuralEvent × ThinkParser :=
  runDeltasAux [] ThinkParser.init ds

/-- Concatenation of the payloads of all `text` parts, in order. -/
def textConcat : List StructuralEvent → List Char
  | [] => []
  | StructuralEvent.text s :: r => s ++ textConcat r
  | _ :: r => textConcat r

/-- Concatenation of a list of strings, mirroring a join on the empty
separator (source line 290 and 315, the join of final_output). -/
def concatAll : List (List Char) → List Char
  | [] => []
  | x :: r => x ++ concatAll r

/-- Join with a separator, mirroring the Python newline join of the
thinking sections (source lines 290 and 305-314). -/
def joinSep (sep : List Char) : List (List Char) → List Char
  | [] => []
  | [x] => x
  | x :: y :: r => x ++ sep ++ joinSep sep (y :: r)

/-- One entry of the session dictionary `st.session_state.thinking`:
the value assigned at source lines 252-255. -/
structure ThinkBlock where
  content : List Char
  open_ : Bool
deriving DecidableEq, Repr

/-- First-match association lookup, mirroring Python dictionary access. -/
def dlookup {α β : Type} [DecidableEq α] : α → List (α × β) → Option β
  | _, [] => none
  | k, (k0, v0) :: t => if k0 = k then some v0 else dlookup k t

/-- Python dictionary assignment `d[k] = v`: replace the first binding of
the key, or append a fresh binding at the end. -/
def dictSet {α β : Type} [DecidableEq α] : List (α × β) → α → β → List (α × β)
  | [], k, v => [(k, v)]
  | (k0, v0) :: t, k, v =>
    if k0 = k then (k0, v) :: t else (k0, v0) :: dictSet t k v

/-- Python statement `thinking[id]["content"] += delta` (source lines
259-262); `none` models the KeyError raised when the id is absent. -/
def thinkAppendAt : List (Option (List Char) × ThinkBlock) → Option (List Char) → List Char →
    Option (List (Option (List Char) × ThinkBlock))
  | [], _, _ => none
  | (k0, b) :: t, k, d =>
    if k0 = k then some ((k0, { b with content := b.content ++ d }) :: t)
    else (thinkAppendAt t k d).map (fun t2 => (k0, b) :: t2)

/-- Python statement `thinking[id]["open"] = False` (source line 266);
`none` models the KeyError raised when the id is absent. -/
def thinkCloseAt : List (Option (List Char) × ThinkBlock) → Option (List Char) →
    Option (List (Option (List Char) × ThinkBlock))
  | [], _ => none
  | (k0, b) :: t, k =>
    if k0 = k then some ((k0, { b with open_ := false }) :: t)
    else (thinkCloseAt t k).map (fun t2 => (k0, b) :: t2)

/-- Renderer-side state of one assistant turn: the list `final_output`,
the dictionary `st.session_state.thinking`, and the deque
`thinking_order` (source lines 215-217 together with line 200). -/
structure Session where
  final_output : List (List Char)
  thinking : List (Option (List Char) × ThinkBlock)
  order : List (Option (List Char))
deriving DecidableEq, Repr

/-- Fresh per-turn renderer state (source lines 215-217). -/
def Session.start : Session := ⟨[], [], []⟩

/-- Dispatch of one parser part in the stream loop (source lines 246-267). -/
def applyPart (s : Session) : StructuralEvent → Option Session
  | StructuralEvent.text c => some { s with final_output := s.final_output ++ [c] }
  | StructuralEvent.think_open id =>
    some { s with thinking := dictSet s.thinking id ⟨[], true⟩, order := s.order ++ [id] }
  | StructuralEvent.think_update id d =>
    (thinkAppendAt s.thinking id d).map (fun t => { s with thinking := t })
  | StructuralEvent.think_close id =>
    (thinkCloseAt s.thinking id).map (fun t => { s with thinking := t })

/-- Apply a whole batch of parts in order (the for loop at line 246). -/
def applyParts : Session → List StructuralEvent → Option Session
  | s, [] => some s
  | s, p :: ps =>
    match applyPart s p with
    | none => none
    | some s2 => applyParts s2 ps

/-- Stream loop over extracted chunks: each truthy chunk is fed to the
parser and its parts are applied to the session (source lines 237-267). -/
def runStreamAux : Session → ThinkParser → List (List Char) → Option (Session × ThinkParser)
  | s, p, [] => some (s, p)
  | s, p, d :: ds =>
    let r := p.process d
    match applyParts s r.1 with
    | none => none
    | some s2 => runStreamAux s2 r.2 ds

/-- Run one whole assistant turn from fresh parser and session state. -/
def runStream (ds : List (List Char)) : Option (Session × ThinkParser) :=
  runStreamAux Session.start ThinkParser.init ds

/-- Text of the final thinking section template before the spliced block
content (source lines 307-310). -/
def divPre : List Char :=
  ("<div class=\"thinking\" data-open=\"false\">\n                        <details>\n                            <summary>🤔 Thinking Process</summary>\n                            <div class=\"thinking-content\">").toList

/-- Text of the final thinking section template after the spliced block
content (source lines 310-312). -/
def divPost : List Char :=
  ("</div>\n                        </details>\n                    </div>").toList

/-- Final rendering of one thinking section (source lines 306-313): the
block is always presented closed, with no open attribute and no cursor. -/
def finalDiv (content : List Char) : List Char := divPre ++ content ++ divPost

/-- End-of-stream display string (source lines 304-316): newline join of
the final sections over `thinking_order`, then the joined final_output;
`none` models the KeyError raised when an ordered id is absent. -/
def finalDisplay (s : Session) : Option (List Char) :=
  (s.order.mapM (fun t => (dlookup t s.thinking).map (fun b => finalDiv b.content))).map
    (fun divs => joinSep (("\n").toList) divs ++ concatAll s.final_output)

/-- Blocks of the session in presentation order, with content and open
state; `none` models a dangling id in `thinking_order`. -/
def blocksView (s : Session) : Option (List ThinkBlock) :=
  s.order.mapM (fun t => dlookup t s.thinking)

/-- Trailing answer text accumulated outside think blocks. -/
def tailView (s : Session) : List Char := concatAll s.final_output

/-- Split a string into one-character deltas (one delta per byte boundary). -/
def splitEvery1 (s : List Char) : List (List Char) := s.map (fun c => [c])

/-- Reference extraction, following the words of the specification for
order preservation: the non-marker characters of a whole input that lie
outside think blocks, in original order.  While outside (flag false) the
first occurrence of the opening marker ends visible text; while inside
(flag true) everything up to and including the first closing marker is
think material; an unterminated block swallows the remaining input.
The fuel argument mirrors the one of `processLoopF`. -/
def specScanF : Nat → Bool → List Char → List Char
  | 0, _, _ => []
  | Nat.succ f, false, s =>
    match findSub openM s with
    | none => s
    | some p => s.take p ++ specScanF f true (s.drop (p + 7))
  | Nat.succ f, true, s =>
    match findSub closeM s with
    | none => []
    | some q => specScanF f false (s.drop (q + 8))

/-- Reference extraction with the canonical sufficient fuel. -/
def specScan (b : Bool) (s : List Char) : List Char := specScanF (s.length + 1) b s

/-- Alternation checker over an event list: starting from a given
open-state flag it returns the final flag, or `none` when a think_open
occurs while a block is already open (or a think_close while none is). -/
def balAux : Bool → List StructuralEvent → Option Bool
  | b, [] => some b
  | b, StructuralEvent.text _ :: r => balAux b r
  | b, StructuralEvent.think_update _ _ :: r => balAux b r
  | false, StructuralEvent.think_open _ :: r => balAux true r
  | true, StructuralEvent.think_open _ :: _ => none
  | true, StructuralEvent.think_close _ :: r => balAux false r
  | false, StructuralEvent.think_close _ :: _ => none

/-- Python exception taxonomy sufficient for the two envelope helpers. -/
inductive PyErr where
  | typeError
  | attributeError
  | indexError
  | keyError
deriving DecidableEq, Repr

/-- JSON-like Python value as produced by json.loads. -/
inductive PyVal where
  | none_ : PyVal
  | bool : Bool → PyVal
  | int : Int → PyVal
  | str : List Char → PyVal
  | list : List PyVal → PyVal
  | dict : List (List Char × PyVal) → PyVal

instance : Inhabited PyVal := ⟨PyVal.none_⟩

/-- Python truthiness of a JSON-like value. -/
def truthy : PyVal → Bool
  | PyVal.none_ => false
  | PyVal.bool b => b
  | PyVal.int n => decide (n ≠ 0)
  | PyVal.str s => !s.isEmpty
  | PyVal.list xs => !xs.isEmpty
  | PyVal.dict kvs => !kvs.isEmpty

/-- Substring test: `pat` occurs contiguously inside `s`. -/
def containsSub (pat s : List Char) : Bool := (findSub pat s).isSome

/-- Python membership test `needle in v` for a string needle: key lookup
on dictionaries, substring test on strings, elementwise equality on lists
(equal only to an equal string element), a TypeError otherwise. -/
def pyIn (needle : List Char) : PyVal → Except PyErr Bool
  | PyVal.dict kvs => Except.ok (dlookup needle kvs).isSome
  | PyVal.str s => Except.ok (containsSub needle s)
  | PyVal.list xs =>
    Except.ok (xs.any (fun x => match x with | PyVal.str t => t = needle | _ => false))
  | _ => Except.error PyErr.typeError

/-- Python `v.get(k, d)`: defaulting lookup on dictionaries, an
AttributeError on every other value. -/
def pyGet (v : PyVal) (k : List Char) (d : PyVal) : Except PyErr PyVal :=
  match v with
  | PyVal.dict kvs => Except.ok ((dlookup k kvs).getD d)
  | _ => Except.error PyErr.attributeError

/-- Python `v[i]` for a natural index: list and string indexing succeed in
range, dictionaries raise KeyError for a non-string key, everything else
a TypeError. -/
def pyIndex : PyVal → Nat → Except PyErr PyVal
  | PyVal.list xs, i =>
    match xs.get? i with
    | some x => Except.ok x
    | none => Except.error PyErr.indexError
  | PyVal.str s, i =>
    match s.get? i with
    | some c => Except.ok (PyVal.str [c])
    | none => Except.error PyErr.indexError
  | PyVal.dict _, _ => Except.error PyErr.keyError
  | _, _ => Except.error PyErr.typeError

/-- Body of the try block of `_process_chunk` (source lines 41-50):
OpenAI shape when the key choices is present, Ollama shape otherwise;
the returned Option is the Python result (None when the extracted
content is falsy). -/
def pyChunkBody (v : PyVal) : Except PyErr (Option PyVal) := do
  let b ← pyIn (("choices").toList) v
  if b then
    let c ← pyGet v (("choices").toList) (PyVal.list [PyVal.dict []])
    let c0 ← pyIndex c 0
    let d ← pyGet c0 (("delta").toList) (PyVal.dict [])
    let content ← pyGet d (("content").toList) PyVal.none_
    pure (if truthy content then some content else none)
  else
    let m ← pyGet v (("message").toList) (PyVal.dict [])
    let content ← pyGet m (("content").toList) PyVal.none_
    pure (if truthy content then some content else none)

/-- The function `_process_chunk` (source lines 31-53): falsy input gives
None, and any exception of the body is swallowed into None. -/
def process_chunk (line : Option PyVal) : Option PyVal :=
  match line with
  | none => none
  | some v =>
    if truthy v then
      match pyChunkBody v with
      | Except.ok r => r
      | Except.error _ => none
    else none

/-- The bytes literal `data: ` checked at source line 20. -/
def sseBytes : List Nat := [100, 97, 116, 97, 58, 32]

/-- The function `_clean_raw_bytes` (source lines 8-28), parameterised by
the two library collaborators: UTF-8 decoding of the byte line and JSON
parsing of a string.  A line starting with the bytes `data: ` is decoded
and parsed after dropping the six prefix characters, any other line is
decoded and parsed whole; every exception is swallowed into None. -/
def clean_raw_bytes (decode : List Nat → Except PyErr (List Char))
    (loads : List Char → Except PyErr PyVal) (line : List Nat) : Option PyVal :=
  let body : Except PyErr PyVal :=
    if sseBytes.isPrefixOf line then
      decode line >>= fun s => loads (s.drop 6)
    else
      decode line >>= fun s => loads s
  match body with
  | Except.ok j => some j
  | Except.error _ => none

/-- One iteration of the stream loop after envelope decoding (source
lines 240-243): a falsy chunk is skipped, a string chunk is fed to the
parser; `none` models the TypeError the source would raise when a truthy
non-string content reaches `parser.process`. -/
def streamStep (p : ThinkParser) (line : Option PyVal) :
    Option (List StructuralEvent × ThinkParser) :=
  match process_chunk line with
  | none => some ([], p)
  | some (PyVal.str s) => some (p.process s)
  | some _ => none

/-- Number of think_open events in a part list. -/
def countOpens : List StructuralEvent → Nat
  | [] => 0
  | StructuralEvent.think_open _ :: r => countOpens r + 1
  | _ :: r => countOpens r

/-- Number of think_close events in a part list. -/
def countCloses : List StructuralEvent → Nat
  | [] => 0
  | StructuralEvent.think_close _ :: r => countCloses r + 1
  | _ :: r => countCloses r

/-- Concatenation of the payloads of all think_update events, in order. -/
def updatesConcat : List StructuralEvent → List Char
  | [] => []
  | StructuralEvent.think_update _ d :: r => d ++ updatesConcat r
  | _ :: r => updatesConcat r

/-- Occurrences found by `findSub` fit inside the searched list. -/
theorem findSub_bound {pat : List Char} :
    ∀ {s : List Char} {i : Nat}, findSub pat s = some i → i + pat.length ≤ s.length := by
  intro s
  induction s with
  | nil =>
    intro i h
    by_cases hp : pat.isPrefixOf ([] : List Char)
    · have hpre : pat <+: ([] : List Char) := List.isPrefixOf_iff_prefix.mp hp
      have hlen : pat.length ≤ 0 := hpre.length_le
      simp only [findSub, hp, if_true, Option.some.injEq] at h
      omega
    · simp [findSub, hp] at h
  | cons c t ih =>
    intro i h
    by_cases hp : pat.isPrefixOf (c :: t)
    · have hpre : pat <+: (c :: t) := List.isPrefixOf_iff_prefix.mp hp
      have hlen : pat.length ≤ (c :: t).length := hpre.length_le
      simp only [findSub, hp, if_true, Option.some.injEq] at h
      omega
    · simp only [findSub, hp, if_false] at h
      rcases hf : findSub pat t with _ | j
      · rw [hf] at h
        simp at h
      · rw [hf] at h
        simp at h
        have := ih hf
        simp only [List.length_cons]
        omega

/-- A hit of the opening marker leaves at least seven characters consumed. -/
theorem findSub_openM_bound {s : List Char} {p : Nat} (h : findSub openM s = some p) :
    p + 7 ≤ s.length := by
  have hb := findSub_bound h
  have hl : openM.length = 7 := rfl
  omega

/-- A hit of the closing marker leaves at least eight characters consumed. -/
theorem findSub_closeM_bound {s : List Char} {e : Nat} (h : findSub closeM s = some e) :
    e + 8 ≤ s.length := by
  have hb := findSub_bound h
  have hl : closeM.length = 8 := rfl
  omega

/-- The loop always terminates with an empty buffer: every exit path of
the source either already has an empty buffer or assigns the empty
string to it. -/
theorem processLoopF_buffer :
    ∀ (f : Nat) (buf : List Char) (bin : Bool) (bid : Option (List Char))
      (parts : List StructuralEvent),
      buf.length < f → (processLoopF f ⟨buf, bin, bid⟩ parts).2.buffer = [] := by
  intro f
  induction f with
  | zero =>
    intro buf bin bid parts h
    exact absurd h (Nat.not_lt_zero _)
  | succ f ih =>
    intro buf bin bid parts h
    cases bin
    · rcases hfind : findSub openM buf with _ | p
      · rcases hbuf : buf with _ | ⟨c, t⟩
        · rw [hbuf] at hfind
          simp [processLoopF, hbuf, hfind]
        · rw [hbuf] at hfind
          simp [processLoopF, hbuf, hfind]
      · have hb : p + 7 ≤ buf.length := findSub_openM_bound hfind
        have hlt : (buf.drop (p + 7)).length < f := by
          simp only [List.length_drop]
          omega
        simp only [processLoopF, hfind]
        exact ih _ _ _ _ hlt
    · rcases hfind : findSub closeM buf with _ | e
      · simp [processLoopF, hfind]
      · have hb : e + 8 ≤ buf.length := findSub_closeM_bound hfind
        have hlt : (buf.drop (e + 8)).length < f := by
          simp only [List.length_drop]
          omega
        simp only [processLoopF, hfind]
        exact ih _ _ _ _ hlt

/-- Text payload concatenation distributes over list append. -/
theorem textConcat_append : ∀ (a b : List StructuralEvent),
    textConcat (a ++ b) = textConcat a ++ textConcat b := by
  intro a b
  induction a with
  | nil => simp [textConcat]
  | cons p r ih => cases p <;> simp [textConcat, ih]

/-- The loop emits, as text, exactly the reference extraction of its
buffer from its current state flag. -/
theorem processLoopF_text :
    ∀ (f : Nat) (buf : List Char) (bin : Bool) (bid : Option (List Char))
      (parts : List StructuralEvent),
      buf.length < f →
      textConcat (processLoopF f ⟨buf, bin, bid⟩ parts).1 =
        textConcat parts ++ specScanF f bin buf := by
  intro f
  induction f with
  | zero =>
    intro buf bin bid parts h
    exact absurd h (Nat.not_lt_zero _)
  | succ f ih =>
    intro buf bin bid parts h
    cases bin
    · rcases hfind : findSub openM buf with _ | p
      · rcases hbuf : buf with _ | ⟨c, t⟩
        · rw [hbuf] at hfind
          simp [processLoopF, specScanF, hfind, textConcat]
        · rw [hbuf] at hfind
          simp [processLoopF, specScanF, hfind, textConcat_append, textConcat]
      · have hb := findSub_openM_bound hfind
        have hlt : (buf.drop (p + 7)).length < f := by
          simp only [List.length_drop]
          omega
        simp only [processLoopF, specScanF, hfind]
        rw [ih _ _ _ _ hlt]
        rcases Nat.eq_zero_or_pos p with hp | hp
        · subst hp
          simp [textConcat_append, textConcat]
        · simp [hp, textConcat_append, textConcat, List.append_assoc]
    · rcases hfind : findSub closeM buf with _ | e
      · simp [processLoopF, specScanF, hfind, textConcat_append, textConcat]
      · have hb := findSub_closeM_bound hfind
        have hlt : (buf.drop (e + 8)).length < f := by
          simp only [List.length_drop]
          omega
        simp only [processLoopF, specScanF, hfind]
        rw [ih _ _ _ _ hlt]
        simp [textConcat_append, textConcat]

/-- Alternation checking distributes over list append through the carried
flag. -/
theorem balAux_append : ∀ (a : List StructuralEvent) (b0 : Bool) (l2 : List StructuralEvent),
    balAux b0 (a ++ l2) = (balAux b0 a).bind (fun m => balAux m l2) := by
  intro a
  induction a with
  | nil => simp [balAux]
  | cons p r ih =>
    intro b0 l2
    cases p <;> cases b0 <;> simp [balAux, ih]

/-- The loop preserves the coupling of the two state attributes: in_think
holds exactly when an open block id is stored. -/
theorem processLoopF_inv :
    ∀ (f : Nat) (buf : List Char) (bin : Bool) (bid : Option (List Char))
      (parts : List StructuralEvent),
      buf.length < f →
      bin = bid.isSome →
      (processLoopF f ⟨buf, bin, bid⟩ parts).2.in_think =
        (processLoopF f ⟨buf, bin, bid⟩ parts).2.open_think_id.isSome := by
  intro f
  induction f with
  | zero =>
    intro buf bin bid parts h _
    exact absurd h (Nat.not_lt_zero _)
  | succ f ih =>
    intro buf bin bid parts h hinv
    cases bin
    · have hbid : bid = none := by
        rcases bid with _ | a
        · rfl
        · simp at hinv
      subst hbid
      rcases hfind : findSub openM buf with _ | p
      · rcases hbuf : buf with _ | ⟨c, t⟩
        · rw [hbuf] at hfind
          simp [processLoopF, hbuf, hfind]
        · rw [hbuf] at hfind
          simp [processLoopF, hbuf, hfind]
      · have hb := findSub_openM_bound hfind
        have hlt : (buf.drop (p + 7)).length < f := by
          simp only [List.length_drop]
          omega
        simp only [processLoopF, hfind]
        exact ih _ _ _ _ hlt rfl
    · rcases bid with _ | a
      · simp at hinv
      · rcases hfind : findSub closeM buf with _ | e
        · simp [processLoopF, hfind]
        · have hb := findSub_closeM_bound hfind
          have hlt : (buf.drop (e + 8)).length < f := by
            simp only [List.length_drop]
            omega
          simp only [processLoopF, hfind]
          exact ih _ _ _ _ hlt rfl

/-- The loop extends a well-alternating part list into a well-alternating
part list whose final flag is the resulting parser state. -/
theorem processLoopF_bal :
    ∀ (f : Nat) (buf : List Char) (bin : Bool) (bid : Option (List Char))
      (parts : List StructuralEvent) (b0 : Bool),
      buf.length < f →
      balAux b0 parts = some bin →
      balAux b0 (processLoopF f ⟨buf, bin, bid⟩ parts).1 =
        some ((processLoopF f ⟨buf, bin, bid⟩ parts).2.in_think) := by
  intro f
  induction f with
  | zero =>
    intro buf bin bid parts b0 h _
    exact absurd h (Nat.not_lt_zero _)
  | succ f ih =>
    intro buf bin bid parts b0 h hbal
    cases bin
    · rcases hfind : findSub openM buf with _ | p
      · rcases hbuf : buf with _ | ⟨c, t⟩
        · rw [hbuf] at hfind
          simp [processLoopF, hbuf, hfind, hbal]
        · rw [hbuf] at hfind
          simp [processLoopF, hbuf, hfind, balAux_append, hbal, balAux]
      · have hb := findSub_openM_bound hfind
        have hlt : (buf.drop (p + 7)).length < f := by
          simp only [List.length_drop]
          omega
        simp only [processLoopF, hfind]
        apply ih
        · exact hlt
        · rcases Nat.eq_zero_or_pos p with hp | hp
          · subst hp
            simp [balAux_append, hbal, balAux]
          · simp [hp, balAux_append, hbal, balAux]
    · rcases hfind : findSub closeM buf with _ | e
      · simp [processLoopF, hfind, balAux_append, hbal, balAux]
      · have hb := findSub_closeM_bound hfind
        have hlt : (buf.drop (e + 8)).length < f := by
          simp only [List.length_drop]
          omega
        simp only [processLoopF, hfind]
        apply ih
        · exact hlt
        · simp [balAux_append, hbal, balAux]

/-- Every call of process returns with an empty buffer. -/
theorem process_buffer (st : ThinkParser) (text : List Char) :
    (st.process text).2.buffer = [] := by
  obtain ⟨buf, bin, bid⟩ := st
  exact processLoopF_buffer _ _ _ _ _ (Nat.lt_succ_self _)

/-- One call of process preserves the state-coupling invariant. -/
theorem process_inv (st : ThinkParser) (text : List Char)
    (h : st.in_think = st.open_think_id.isSome) :
    (st.process text).2.in_think = (st.process text).2.open_think_id.isSome := by
  obtain ⟨buf, bin, bid⟩ := st
  exact processLoopF_inv _ _ _ _ _ (Nat.lt_succ_self _) h

/-- One call of process emits a well-alternating part list continuing the
state flag it entered with, and ends at the flag it leaves with. -/
theorem process_bal (st : ThinkParser) (text : List Char) :
    balAux st.in_think (st.process text).1 = some ((st.process text).2.in_think) := by
  obtain ⟨buf, bin, bid⟩ := st
  exact processLoopF_bal _ _ _ _ _ _ (Nat.lt_succ_self _) (by simp [balAux])

/-- Chained invariant and alternation over a whole delta sequence. -/
theorem runDeltasAux_inv_bal :
    ∀ (ds : List (List Char)) (acc : List StructuralEvent) (p : ThinkParser),
      p.in_think = p.open_think_id.isSome →
      balAux false acc = some p.in_think →
      ((runDeltasAux acc p ds).2.in_think =
        (runDeltasAux acc p ds).2.open_think_id.isSome) ∧
      balAux false (runDeltasAux acc p ds).1 =
        some ((runDeltasAux acc p ds).2.in_think) := by
  intro ds
  induction ds with
  | nil =>
    intro acc p hinv hbal
    exact ⟨hinv, hbal⟩
  | cons d ds ih =>
    intro acc p hinv hbal
    have hstep : balAux false (acc ++ (p.process d).1) = some ((p.process d).2.in_think) := by
      rw [balAux_append, hbal]
      exact process_bal p d
    exact ih _ _ (process_inv p d hinv) hstep

/-- C1: the opening marker split as <thi / nk> across two deltas is NOT
recognized by the code: both fragments are flushed as plain text and no
block ever opens, although the unsplit marker does open one; likewise a
split closing marker is swallowed as think content and the block never
closes.  This refutes marker-split invariance on the code as written. -/
theorem c1_split_marker_lost :
    (runDeltas [("<thi").toList, ("nk>").toList]).1 =
      [StructuralEvent.text (("<thi").toList), StructuralEvent.text (("nk>").toList)]
    ∧ countOpens (runDeltas [("<thi").toList, ("nk>").toList]).1 = 0
    ∧ countOpens (runDeltas [("<think>").toList]).1 = 1
    ∧ countCloses (runDeltas [("<think>a").toList, ("</thi").toList, ("nk>b").toList]).1 = 0
    ∧ countCloses (runDeltas [("<think>a</think>b").toList]).1 = 1 := by
  exact ⟨by decide, by decide, by decide, by decide, by decide⟩

/-- C2: feeding the response text in one delta and feeding it split at
every byte boundary give different final rendered structures: one think
block with content hi and tail yes versus zero blocks and the raw text
as tail.  This refutes the idempotent-flush property on the code. -/
theorem c2_chunking_changes_final_render :
    ((runStream [("<think>hi</think>yes").toList]).map
        (fun sp => (blocksView sp.1, tailView sp.1)) =
      some (some [⟨("hi").toList, false⟩], ("yes").toList))
    ∧ ((runStream (splitEvery1 (("<think>hi</think>yes").toList))).map
        (fun sp => (blocksView sp.1, tailView sp.1)) =
      some (some [], ("<think>hi</think>yes").toList)) := by
  exact ⟨by decide, by decide⟩

/-- C3: on the five-delta scenario of the specification the code emits
five Text events and not a single think event, because both markers are
split across deltas and each fragment is flushed as text. -/
theorem c3_scenario_yields_text_only :
    (runDeltas [("Hello ").toList, ("<th").toList, ("ink>reasoning").toList,
                (" here</thi").toList, ("nk> world").toList]).1 =
      [StructuralEvent.text (("Hello ").toList),
       StructuralEvent.text (("<th").toList),
       StructuralEvent.text (("ink>reasoning").toList),
       StructuralEvent.text ((" here</thi").toList),
       StructuralEvent.text (("nk> world").toList)]
    ∧ countOpens (runDeltas [("Hello ").toList, ("<th").toList, ("ink>reasoning").toList,
                (" here</thi").toList, ("nk> world").toList]).1 = 0 := by
  exact ⟨by decide, by decide⟩

/-- C4: on input <think>A<think>B</think>C the parser emits exactly one
think_open, accumulates A<think>B as think content, emits exactly one
think_close, and emits C as trailing text: a second opening marker inside
a block is literal content, never a new block. -/
theorem c4_no_nested_reopen :
    (runDeltas [("<think>A<think>B</think>C").toList]).1 =
      [StructuralEvent.think_open (some (("think-0").toList)),
       StructuralEvent.think_update (some (("think-0").toList)) (("A<think>B").toList),
       StructuralEvent.think_close (some (("think-0").toList)),
       StructuralEvent.text (("C").toList)]
    ∧ countOpens (runDeltas [("<think>A<think>B</think>C").toList]).1 = 1
    ∧ updatesConcat (runDeltas [("<think>A<think>B</think>C").toList]).1 =
        ("A<think>B").toList
    ∧ countCloses (runDeltas [("<think>A<think>B</think>C").toList]).1 = 1
    ∧ textConcat (runDeltas [("<think>A<think>B</think>C").toList]).1 = ("C").toList := by
  exact ⟨by decide, by decide, by decide, by decide, by decide⟩

/-- C5: when the stream ends while a block is still open, the final
render presents exactly one section, built from the always-closed
template with the accumulated content, with data-open false, no open
attribute on the details element and no streaming-cursor marker, even
though the session still records the block as open. -/
theorem c5_unterminated_rendered_closed :
    ((runStream [("<think>partial").toList]).bind (fun sp => finalDisplay sp.1) =
      some (finalDiv (("partial").toList)))
    ∧ ((runStream [("<think>partial").toList]).map (fun sp => blocksView sp.1) =
      some (some [⟨("partial").toList, true⟩]))
    ∧ containsSub (("data-open=\"false\"").toList) (finalDiv (("partial").toList)) = true
    ∧ containsSub (("streaming-cursor").toList) (finalDiv (("partial").toList)) = false
    ∧ containsSub (("<details open").toList) (finalDiv (("partial").toList)) = false := by
  exact ⟨by decide, by decide, by decide, by decide, by decide⟩

/-- C6 counterexample: with the opening marker split across two deltas the
concatenated Text payloads contain the whole marker, so they differ from
the non-marker characters outside think blocks of the concatenated input. -/
theorem c6_chunked_counterexample :
    textConcat (runDeltas [("<thi").toList, ("nk>a</think>b").toList]).1 ≠
      specScan false (concatAll [("<thi").toList, ("nk>a</think>b").toList]) := by
  decide

/-- C6 (amended): when the whole input arrives as a single delta, the
concatenation of the emitted Text payloads is exactly the reference
extraction of the input: its non-marker characters outside think blocks,
in original order. -/
theorem c6_single_delta_text_order (s : List Char) :
    textConcat (ThinkParser.init.process s).1 = specScan false s := by
  have h := processLoopF_text (s.length + 1) s false none [] (Nat.lt_succ_self _)
  simpa [ThinkParser.process, ThinkParser.init, textConcat, specScan] using h

/-- C7: for every byte line and every behaviour of the decoding and JSON
parsing collaborators, clean_raw_bytes returns the parsed value of the
line with the six prefix characters stripped when the line starts with
the bytes of data-colon-space, the parsed value of the whole line
otherwise, and None whenever decoding or parsing fails; the swallowing
wrapper makes the result total, never an exception. -/
theorem c7_clean_raw_bytes_total (decode : List Nat → Except PyErr (List Char))
    (loads : List Char → Except PyErr PyVal) (line : List Nat) :
    clean_raw_bytes decode loads line =
      match decode line with
      | Except.error _ => none
      | Except.ok s =>
        match loads (if sseBytes.isPrefixOf line then s.drop 6 else s) with
        | Except.error _ => none
        | Except.ok j => some j := by
  by_cases hp : sseBytes.isPrefixOf line
  · rcases hd : decode line with e | s
    · simp [clean_raw_bytes, hp, hd, Bind.bind, Except.bind]
    · rcases hl : loads (s.drop 6) with e2 | j
      · simp [clean_raw_bytes, hp, hd, hl, Bind.bind, Except.bind]
      · simp [clean_raw_bytes, hp, hd, hl, Bind.bind, Except.bind]
  · rcases hd : decode line with e | s
    · simp [clean_raw_bytes, hp, hd, Bind.bind, Except.bind]
    · rcases hl : loads s with e2 | j
      · simp [clean_raw_bytes, hp, hd, hl, Bind.bind, Except.bind]
      · simp [clean_raw_bytes, hp, hd, hl, Bind.bind, Except.bind]

/-- C8: the delta extractor returns None on absent input, on a falsy
envelope, whenever any intermediate key (choices, delta, content,
message) is missing, and whenever the extracted content is the empty
string; and a None chunk produces zero structural events in the stream
loop. -/
theorem c8_empty_and_missing_yield_none :
    process_chunk none = none
    ∧ (∀ kvs, dlookup (("choices").toList) kvs = none →
        dlookup (("message").toList) kvs = none →
        process_chunk (some (PyVal.dict kvs)) = none)
    ∧ (∀ kvs d0, dlookup (("choices").toList) kvs = some (PyVal.list [PyVal.dict d0]) →
        dlookup (("delta").toList) d0 = none →
        process_chunk (some (PyVal.dict kvs)) = none)
    ∧ (∀ kvs d0 e, dlookup (("choices").toList) kvs = some (PyVal.list [PyVal.dict d0]) →
        dlookup (("delta").toList) d0 = some (PyVal.dict e) →
        (dlookup (("content").toList) e = none ∨
          dlookup (("content").toList) e = some (PyVal.str [])) →
        process_chunk (some (PyVal.dict kvs)) = none)
    ∧ (∀ kvs m, dlookup (("choices").toList) kvs = none →
        dlookup (("message").toList) kvs = some (PyVal.dict m) →
        (dlookup (("content").toList) m = none ∨
          dlookup (("content").toList) m = some (PyVal.str [])) →
        process_chunk (some (PyVal.dict kvs)) = none)
    ∧ (∀ (p : ThinkParser) (line : Option PyVal), process_chunk line = none →
        streamStep p line = some ([], p)) := by
  refine ⟨rfl, ?_, ?_, ?_, ?_, ?_⟩
  · intro kvs h1 h2
    rcases kvs with _ | ⟨⟨k0, v0⟩, rest⟩
    · rfl
    · simp at h1 h2
      simp [process_chunk, truthy, pyChunkBody, pyIn, pyGet, pyIndex, h1, h2,
        Bind.bind, Except.bind, pure, Except.pure]
      simp [dlookup]
  · intro kvs d0 h1 h2
    rcases kvs with _ | ⟨⟨k0, v0⟩, rest⟩
    · simp [dlookup] at h1
    · simp at h1 h2
      simp [process_chunk, truthy, pyChunkBody, pyIn, pyGet, pyIndex, h1, h2,
        Bind.bind, Except.bind, pure, Except.pure]
      simp [dlookup]
  · intro kvs d0 e h1 h2 h3
    rcases kvs with _ | ⟨⟨k0, v0⟩, rest⟩
    · simp [dlookup] at h1
    · simp at h1 h2
      rcases h3 with h3 | h3 <;> simp at h3 <;>
        simp [process_chunk, truthy, pyChunkBody, pyIn, pyGet, pyIndex, h1, h2, h3,
          Bind.bind, Except.bind, pure, Except.pure]
  · intro kvs m h1 h2 h3
    rcases kvs with _ | ⟨⟨k0, v0⟩, rest⟩
    · simp [dlookup] at h2
    · simp at h1 h2
      rcases h3 with h3 | h3 <;> simp at h3 <;>
        simp [process_chunk, truthy, pyChunkBody, pyIn, pyGet, pyIndex, h1, h2, h3,
          Bind.bind, Except.bind, pure, Except.pure]
  · intro p line h
    simp [streamStep, h]

/-- C8 witness: concrete envelopes with a missing key or an empty content
string all extract to None, and a None chunk feeds nothing to the parser. -/
theorem c8_witness :
    process_chunk (some (PyVal.dict
      [((("model").toList), PyVal.str (("m").toList))])) = none
    ∧ process_chunk (some (PyVal.dict
      [((("choices").toList), PyVal.list
        [PyVal.dict [((("index").toList), PyVal.int 0)]])])) = none
    ∧ process_chunk (some (PyVal.dict
      [((("choices").toList), PyVal.list
        [PyVal.dict [((("delta").toList), PyVal.dict
          [((("content").toList), PyVal.str [])])]])])) = none
    ∧ process_chunk (some (PyVal.dict
      [((("message").toList), PyVal.dict
        [((("content").toList), PyVal.str [])])])) = none
    ∧ streamStep ThinkParser.init none = some ([], ThinkParser.init) := by
  refine ⟨?_, ?_, ?_, ?_, ?_⟩
  · exact c8_empty_and_missing_yield_none.2.1 _ rfl rfl
  · exact c8_empty_and_missing_yield_none.2.2.1 _ _ rfl rfl
  · exact c8_empty_and_missing_yield_none.2.2.2.1 _ _ _ rfl rfl (Or.inr rfl)
  · exact c8_empty_and_missing_yield_none.2.2.2.2.1 _ _ rfl rfl (Or.inr rfl)
  · exact c8_empty_and_missing_yield_none.2.2.2.2.2 ThinkParser.init none
      c8_empty_and_missing_yield_none.1

/-- C9: over every delta sequence fed to a fresh parser, the resulting
state couples in_think with the stored open block id, and the full event
stream alternates think_open and think_close correctly from the closed
state, so at most one block is ever open and a think_open is never
emitted while a block is already open. -/
theorem c9_parser_state_invariant (ds : List (List Char)) :
    ((runDeltas ds).2.in_think = (runDeltas ds).2.open_think_id.isSome)
    ∧ balAux false (runDeltas ds).1 = some ((runDeltas ds).2.in_think) := by
  exact runDeltasAux_inv_bal ds [] ThinkParser.init rfl rfl

/-- C10: every call of process returns with an empty buffer, for every
starting parser state and every input delta: no unconsumed input is ever
retained across calls. -/
theorem c10_buffer_never_persists (st : ThinkParser) (text : List Char) :
    (st.process text).2.buffer = [] := by
  exact process_buffer st text
